import Mathlib

/-!
Shallow embedding of `check_apc.py`, a Nagios-style monitoring probe for an
APC UPS.  Strings are modelled as `List Char` (`Str`), Python floats as `ℚ`
(every numeric value in the program is parsed from a decimal token, and the
program only compares and prints them, so rationals model them exactly).
Python truthiness of an optional float argument (`None` and `0.0` are falsy)
is modelled by `truthy`.  The program's two broken `raise`/`except` sites
(`except exception` in `getValue`, `raise UnknownPluginException` in
`parseCommandLine`, both undefined names) are modelled by the `PyExc.nameError`
outcome: at runtime CPython raises `NameError`, which no handler catches, so
the process prints a traceback and exits with status 1.
-/

set_option maxRecDepth 8000

abbrev Str := List Char

/-- Python `str.strip()`: drop whitespace from both ends. -/
def trimStr (s : Str) : Str :=
  ((s.dropWhile Char.isWhitespace).reverse.dropWhile Char.isWhitespace).reverse

/-- One iteration of the parsing loop of `getAPCInfo` (lines 21-24 of the
source): if the line contains a colon, split at the first colon, strip both
parts, and store the pair in the dict (modelled as a function update, so a
later duplicate key wins, as in a Python dict). -/
def parseLine (d : Str → Option Str) (line : Str) : Str → Option Str :=
  if line.contains ':' then
    let k := line.takeWhile (fun c => c != ':')
    let v := line.drop (k.length + 1)
    fun x => if x = trimStr k then some (trimStr v) else d x
  else d

/-- Parsing part of `getAPCInfo` (the subprocess call is the external status
source; its successful stdout, already split into lines, is the input here). -/
def getAPCInfo (lines : List Str) : Str → Option Str :=
  lines.foldl parseLine (fun _ => none)

/-- First match of the regex `[-+]?[0-9]*\.?[0-9]*` in `s`.  The pattern can
match the empty string, so `re.findall(...)[0]` is always the (greedy) match
at position 0: an optional sign, a maximal digit run, an optional dot, and a
maximal digit run. -/
def findallHead (s : Str) : Str :=
  let sgn : Str :=
    match s with
    | c :: _ => if c = '-' ∨ c = '+' then [c] else []
    | [] => []
  let s1 : Str :=
    match s with
    | c :: r => if c = '-' ∨ c = '+' then r else s
    | [] => []
  let d1 := s1.takeWhile Char.isDigit
  let s2 := s1.drop d1.length
  if s2.take 1 = ['.'] then sgn ++ d1 ++ '.' :: (s2.drop 1).takeWhile Char.isDigit
  else sgn ++ d1

/-- Numeric value of a digit string (most significant digit first). -/
def natOfDigits (ds : Str) : ℕ :=
  ds.foldl (fun n c => 10 * n + (c.toNat - '0'.toNat)) 0

/-- Python `float(tok)` for a token made of an optional sign, digits, an
optional dot and digits (all a match of the regex above can contain).
`float` succeeds iff the token has at least one digit; `none` models the
`ValueError` on tokens such as `""`, `"-"`, `"."`. -/
def pyFloat (s : Str) : Option ℚ :=
  let sgn : Bool :=
    match s with
    | c :: _ => c == '-'
    | [] => false
  let s1 : Str :=
    match s with
    | c :: r => if c = '-' ∨ c = '+' then r else s
    | [] => []
  let d1 := s1.takeWhile Char.isDigit
  let s2 := s1.drop d1.length
  let d2 := if s2.take 1 = ['.'] then (s2.drop 1).takeWhile Char.isDigit else []
  let s3 := if s2.take 1 = ['.'] then (s2.drop 1).drop d2.length else s2
  if s3 = [] ∧ (d1 ≠ [] ∨ d2 ≠ []) then
    some (mkRat ((if sgn then -1 else 1) * (natOfDigits (d1 ++ d2) : ℤ)) (10 ^ d2.length))
  else none

/-- Exceptional outcomes of the embedded program.  `nameError` stands for the
`NameError` produced by evaluating an undefined name (`exception` on line 34,
`UnknownPluginException` on lines 103/106 of the source). -/
inductive PyExc where
  | nameError
deriving DecidableEq

/-- Embedding of `getValue(info, key, isFloat=True)` (the program only uses
the float path).  A missing key (`KeyError`) or an unparsable leading token
(`ValueError`) lands in the `except exception as e` clause, whose guard
expression `exception` is an undefined name, so the actual outcome is a
`NameError`, not the intended `PluginUnknownException`. -/
def getValue (info : Str → Option Str) (key : Str) : Except PyExc ℚ :=
  match info key with
  | none => .error .nameError
  | some v =>
    match pyFloat (findallHead v) with
    | none => .error .nameError
    | some q => .ok q

/-- Python truthiness of an optional float: `None` and `0.0` are falsy. -/
def truthy (o : Option ℚ) : Prop := o.getD 0 ≠ 0

instance (o : Option ℚ) : Decidable (truthy o) := by
  unfold truthy; infer_instance

/-- Embedding of `checkValue(val, warn, crit, threshold_is_minimum=True)`
(lines 37-52): Python `crit and val < crit` tests the truthiness of `crit`
first, so a `None` or `0.0` threshold never fires. -/
def checkValue (val : ℚ) (warn crit : Option ℚ)
    (threshold_is_minimum : Bool := true) : ℕ :=
  if threshold_is_minimum then
    if truthy crit ∧ val < crit.getD 0 then 2
    else if truthy warn ∧ val < warn.getD 0 then 1
    else 0
  else
    if truthy crit ∧ crit.getD 0 < val then 2
    else if truthy warn ∧ warn.getD 0 < val then 1
    else 0

/-- Embedding of `stateText` (lines 54-58). -/
def stateText (state : ℕ) : Str :=
  if state = 3 then ("UNKNOWN").data
  else if state = 2 then ("CRITICAL").data
  else if state = 1 then ("WARNING").data
  else ("OK").data

/-- Parsed command-line options (`argparse` dest fields; each threshold is
`none` when the flag is absent). -/
structure Options where
  online : Bool
  chargewarn : Option ℚ
  chargecrit : Option ℚ
  timewarn : Option ℚ
  timecrit : Option ℚ
  voltwarn : Option ℚ
  voltcrit : Option ℚ
deriving DecidableEq

/-- Validation part of `parseCommandLine` (lines 102-106).  The `raise
UnknownPluginException(...)` statements name an undefined class (the class is
called `PluginUnknownException`), so evaluating them raises `NameError`. -/
def validateOptions (o : Options) : Except PyExc Unit :=
  if truthy o.chargewarn ∧ (o.chargewarn.getD 0 < 0 ∨ 100 < o.chargewarn.getD 0) then
    .error .nameError
  else if truthy o.chargecrit ∧ (o.chargecrit.getD 0 < 0 ∨ 100 < o.chargecrit.getD 0) then
    .error .nameError
  else .ok ()

/-- Running state of the main block: `status`, `text`, `perfdata`. -/
structure CheckState where
  status : ℕ
  text : List Str
  perfdata : List Str
deriving DecidableEq

/-- Embedding of `status = new_status if new_status > status else status`. -/
def aggStep (status new_status : ℕ) : ℕ :=
  if new_status > status then new_status else status

/-- One metric block of the main program (lines 129-135, 138-144 or 147-153):
if either threshold is truthy, extract the metric, append its text and
perfdata fragments, and, unless `always_ok`, fold its `checkValue` severity
into the running status. -/
def metricStep (apcinfo : Str → Option Str) (always_ok : Bool)
    (warn crit : Option ℚ) (key : Str) (tf pf : ℚ → Str)
    (st : CheckState) : Except PyExc CheckState :=
  if truthy warn ∨ truthy crit then
    match getValue apcinfo key with
    | .error e => .error e
    | .ok v =>
      let st' : CheckState := ⟨st.status, st.text ++ [tf v], st.perfdata ++ [pf v]⟩
      if always_ok then .ok st'
      else .ok ⟨aggStep st'.status (checkValue v warn crit true), st'.text, st'.perfdata⟩
  else .ok st

/-- Least exponent `k ≤ 17` with `d ∣ 10 ^ k` (used to render a decimally
representable rational the way CPython's `repr` renders the float parsed
from the same decimal token). -/
def findExp (d : ℕ) : ℕ :=
  ((List.range 18).find? (fun k => 10 ^ k % d == 0)).getD 0

/-- Decimal digits of a natural number, most significant first (fuel-indexed
division loop). -/
def natDigitsGo : ℕ → ℕ → Str → Str
  | 0, _, acc => acc
  | fuel + 1, n, acc =>
    if n = 0 then acc
    else natDigitsGo fuel (n / 10) (Char.ofNat ('0'.toNat + n % 10) :: acc)

/-- Decimal digit string of a natural number. -/
def natDigits (n : ℕ) : Str :=
  if n = 0 then ['0'] else natDigitsGo (n + 1) n []

/-- Rendering of a Python float inside an f-string (`str`/`repr`), restricted
to the decimally representable values the pipeline produces: the minimal
exact decimal expansion, with at least one digit on each side of the point
(`repr(100.0) = "100.0"`, `repr(13.5) = "13.5"`, `repr(0.1) = "0.1"`). -/
def pyFloatRepr (q : ℚ) : Str :=
  let sgn : Str := if q < 0 then ['-'] else []
  let k := findExp q.den
  let m := q.num.natAbs * 10 ^ k / q.den
  let ds := natDigits m
  let ds := if ds.length ≤ k then List.replicate (k + 1 - ds.length) '0' ++ ds else ds
  sgn ++ ds.take (ds.length - k) ++ '.' :: (if k = 0 then ['0'] else ds.drop (ds.length - k))

/-- Text fragment `f"charge: {charge}%"`. -/
def chargeText (q : ℚ) : Str := ("charge: ").data ++ pyFloatRepr q ++ ("%").data

/-- Perfdata fragment `f"charge={charge}%"`. -/
def chargePerf (q : ℚ) : Str := ("charge=").data ++ pyFloatRepr q ++ ("%").data

/-- Text fragment `f"available runtime: {runtime} minutes"`. -/
def runtimeText (q : ℚ) : Str := ("available runtime: ").data ++ pyFloatRepr q ++ (" minutes").data

/-- Perfdata fragment `f"runtime={runtime}"`. -/
def runtimePerf (q : ℚ) : Str := ("runtime=").data ++ pyFloatRepr q

/-- Text fragment `f"voltage: {volt}V"`. -/
def voltText (q : ℚ) : Str := ("voltage: ").data ++ pyFloatRepr q ++ ("V").data

/-- Perfdata fragment `f"voltage={volt}"`. -/
def voltPerf (q : ℚ) : Str := ("voltage=").data ++ pyFloatRepr q

/-- Propagation of an uncaught exception through a pipeline stage. -/
def exBind (x : Except PyExc CheckState)
    (f : CheckState → Except PyExc CheckState) : Except PyExc CheckState :=
  match x with
  | .error e => .error e
  | .ok s => f s

/-- Evaluation pipeline of the main block (lines 113-161), given the options
and the lines the external status source returned: validate the charge
thresholds, determine the power state, run the three metric blocks, then
apply the on-battery override.  Any `NameError` escapes as `.error`. -/
def evalChecks (o : Options) (lines : List Str) : Except PyExc CheckState :=
  match validateOptions o with
  | .error e => .error e
  | .ok _ =>
    match getValue (getAPCInfo lines) ("TONBATT").data with
    | .error e => .error e
    | .ok tonbatt =>
      let on_batt : Bool := decide (0 < tonbatt)
      let always_ok : Bool := o.online && !on_batt
      let st0 : CheckState :=
        ⟨0, [if on_batt then ("on battery").data else ("online").data], []⟩
      exBind (metricStep (getAPCInfo lines) always_ok o.chargewarn o.chargecrit
          ("BCHARGE").data chargeText chargePerf st0) (fun st1 =>
      exBind (metricStep (getAPCInfo lines) always_ok o.timewarn o.timecrit
          ("TIMELEFT").data runtimeText runtimePerf st1) (fun st2 =>
      exBind (metricStep (getAPCInfo lines) always_ok o.voltwarn o.voltcrit
          ("BATTV").data voltText voltPerf st2) (fun st3 =>
      .ok (if on_batt && (st3.text.length == 1) && !always_ok then
             { st3 with status := 2 }
           else st3))))

/-- Join a list of fragments with a separator (Python `sep.join(xs)`). -/
def joinWith (sep : Str) : List Str → Str
  | [] => []
  | [x] => x
  | x :: xs => x ++ sep ++ joinWith sep xs

/-- Output of the final prints (lines 163-168): the report line, the optional
perfdata section, and the final newline. -/
def formatReport (st : CheckState) : Str :=
  let line := ("UPS ").data ++ stateText st.status ++ (" - ").data ++
    joinWith ((", ").data) st.text ++ (";").data
  let line := if st.perfdata = [] then line
    else line ++ ("| ").data ++ joinWith ((",").data) st.perfdata
  line ++ ("\n").data

/-- Observable outcome of a run: a printed report with an exit status, or an
uncaught exception (traceback on stderr, exit status 1). -/
inductive RunResult where
  | output : Str → ℕ → RunResult
  | crash : PyExc → RunResult
deriving DecidableEq

/-- Exit status of a run; CPython exits with 1 on an uncaught exception. -/
def exitCode : RunResult → ℕ
  | .output _ c => c
  | .crash _ => 1

/-- Whole-run embedding of the main block.  The script's only handler is
`except PluginUnknownException` (line 155), which a `NameError` does not
match, so every `.error` of the pipeline escapes as an uncaught crash. -/
def runCheck (o : Options) (lines : List Str) : RunResult :=
  match evalChecks o lines with
  | .error e => .crash e
  | .ok st => .output (formatReport st) st.status

/-- Options with no flags at all. -/
def noThresholds : Options := ⟨false, none, none, none, none, none, none⟩

/-- Options with only the online flag `-o`. -/
def onlineOnly : Options := ⟨true, none, none, none, none, none, none⟩

/-- Options `--charge-warn 50 --charge-crit 20`. -/
def chargeOpts : Options := ⟨false, some 50, some 20, none, none, none, none⟩

/-- Options `--online --charge-warn 50 --charge-crit 20`. -/
def onlineChargeOpts : Options := ⟨true, some 50, some 20, none, none, none, none⟩

/-- Options with only `--charge-warn 50`. -/
def chargeWarnOnly : Options := ⟨false, some 50, none, none, none, none, none⟩

/-- Options with an out-of-range `--charge-warn 150`. -/
def badChargeWarn : Options := ⟨false, some 150, none, none, none, none, none⟩

/-- Status lines of a UPS that has been on battery for 120 seconds. -/
def onBattLines : List Str := [("TONBATT : 120 Seconds").data]

/-- Status lines of a healthy UPS on wall power. -/
def okLines : List Str :=
  [("TONBATT : 0 Seconds").data, ("BCHARGE : 100.0 Percent").data,
   ("TIMELEFT : 45.0 Minutes").data, ("BATTV : 13.5 Volts").data]

/-- Status lines of a UPS on wall power with a low battery charge. -/
def lowChargeLines : List Str :=
  [("TONBATT : 0 Seconds").data, ("BCHARGE : 10.0 Percent").data]

/-- Status lines of a UPS record that lacks the `BCHARGE` key. -/
def noChargeLines : List Str := [("TONBATT : 0 Seconds").data]

/-- Structured description of a signed decimal token `<num>`: an optional
sign character, the integer digits, and the optional fractional digits
(`some []` means a trailing dot, as in `"5."`). -/
structure NumSpec where
  sign : Option Char
  intDs : Str
  fracDs : Option Str
deriving DecidableEq

/-- Wellformedness of a `NumSpec`: the sign is `-` or `+` when present, every
digit slot holds digits, and there is at least one digit (so `float` accepts
the token). -/
def NumSpec.wf (n : NumSpec) : Prop :=
  (n.sign = none ∨ n.sign = some '-' ∨ n.sign = some '+') ∧
  (∀ c ∈ n.intDs, c.isDigit = true) ∧
  (∀ c ∈ n.fracDs.getD [], c.isDigit = true) ∧
  (n.intDs ≠ [] ∨ n.fracDs.getD [] ≠ [])

instance (n : NumSpec) : Decidable n.wf := by unfold NumSpec.wf; infer_instance

/-- Concrete text of the token. -/
def NumSpec.str (n : NumSpec) : Str :=
  (match n.sign with | some c => [c] | none => []) ++ n.intDs ++
    (match n.fracDs with | some f => '.' :: f | none => [])

/-- Exact rational value denoted by the decimal token (what Python's `float`
returns for it, in the rational model). -/
def NumSpec.val (n : NumSpec) : ℚ :=
  mkRat ((if n.sign = some '-' then -1 else 1) *
    (natOfDigits (n.intDs ++ n.fracDs.getD []) : ℤ)) (10 ^ (n.fracDs.getD []).length)

/-- One `key: <num> <unit>` line of a status text, in structured form. -/
structure Entry where
  key : Str
  num : NumSpec
  unit : Str
deriving DecidableEq

/-- Wellformedness of an entry: the key carries no surrounding whitespace and
no colon, and the numeric token is wellformed. -/
def Entry.wf (e : Entry) : Prop :=
  trimStr e.key = e.key ∧ ':' ∉ e.key ∧ e.num.wf

instance (e : Entry) : Decidable e.wf := by unfold Entry.wf; infer_instance

/-- Raw text of the entry's line. -/
def Entry.line (e : Entry) : Str := e.key ++ ':' :: (e.num.str ++ ' ' :: e.unit)

/-- Property of the residue left to the right of a numeric token after
stripping: it is empty or starts with a space. -/
def spaceTail (r : Str) : Prop := r = [] ∨ ∃ r', r = ' ' :: r'

/-- Concrete entry `BCHARGE: 100.0 Percent` used as a round-trip witness. -/
def bchargeEntry : Entry :=
  ⟨("BCHARGE").data, ⟨none, ("100").data, some (("0").data)⟩, ("Percent").data⟩

/-- Computation rule of `exBind` on a successful stage. -/
theorem exBind_ok (s : CheckState) (f : CheckState → Except PyExc CheckState) :
    exBind (.ok s) f = f s := rfl

/-- Computation rule of `exBind` on a failed stage. -/
theorem exBind_error (e : PyExc) (f : CheckState → Except PyExc CheckState) :
    exBind (.error e) f = .error e := rfl

/-- Truthiness of an optional threshold combined with a `<` comparison, in
explicit form. -/
theorem truthy_lt_iff (o : Option ℚ) (v : ℚ) :
    (truthy o ∧ v < o.getD 0) ↔ ∃ c, o = some c ∧ c ≠ 0 ∧ v < c := by
  cases o <;> simp [truthy]

/-- Truthiness of an optional threshold combined with a `>` comparison, in
explicit form. -/
theorem truthy_gt_iff (o : Option ℚ) (v : ℚ) :
    (truthy o ∧ o.getD 0 < v) ↔ ∃ c, o = some c ∧ c ≠ 0 ∧ c < v := by
  cases o <;> simp [truthy]

/-- C1 (corrected): full characterization of `checkValue`.  In the
minimum direction the result is CRITICAL iff `crit` is set *and nonzero* and
`value < crit`, else WARNING iff `warn` is set and nonzero and
`value < warn`, else OK; symmetrically with `>` when the direction is
maximum.  (A threshold supplied as exactly `0` is falsy in Python and never
fires, which is the correction to the claim as stated.) -/
theorem C1_checkValue_law (val : ℚ) (warn crit : Option ℚ) :
    ((checkValue val warn crit true = 2 ↔ ∃ c, crit = some c ∧ c ≠ 0 ∧ val < c) ∧
     (checkValue val warn crit true = 1 ↔
       ¬(∃ c, crit = some c ∧ c ≠ 0 ∧ val < c) ∧ ∃ w, warn = some w ∧ w ≠ 0 ∧ val < w) ∧
     (checkValue val warn crit true = 0 ↔
       ¬(∃ c, crit = some c ∧ c ≠ 0 ∧ val < c) ∧ ¬∃ w, warn = some w ∧ w ≠ 0 ∧ val < w)) ∧
    ((checkValue val warn crit false = 2 ↔ ∃ c, crit = some c ∧ c ≠ 0 ∧ c < val) ∧
     (checkValue val warn crit false = 1 ↔
       ¬(∃ c, crit = some c ∧ c ≠ 0 ∧ c < val) ∧ ∃ w, warn = some w ∧ w ≠ 0 ∧ w < val) ∧
     (checkValue val warn crit false = 0 ↔
       ¬(∃ c, crit = some c ∧ c ≠ 0 ∧ c < val) ∧ ¬∃ w, warn = some w ∧ w ≠ 0 ∧ w < val)) := by
  rw [← truthy_lt_iff crit val, ← truthy_lt_iff warn val,
      ← truthy_gt_iff crit val, ← truthy_gt_iff warn val]
  unfold checkValue
  simp only [if_true, Bool.false_eq_true, if_false]
  constructor <;> refine ⟨?_, ?_, ?_⟩ <;> split_ifs <;> simp_all

/-- C1 counterexample: with `crit` supplied as `0` (hence "set"), a value
below it, and the minimum direction, the claim as stated demands CRITICAL,
but `checkValue` returns OK because `0.0` is falsy in Python. -/
theorem C1_zero_crit_cex :
    (some (0 : ℚ)).isSome = true ∧ (-1 : ℚ) < 0 ∧
      checkValue (-1 : ℚ) none (some 0) true = 0 ∧
      checkValue (-1 : ℚ) none (some 0) true ≠ 2 := by
  refine ⟨rfl, by norm_num, rfl, by decide⟩

/-- C2 (code bug): for a run with `--charge-warn 50` and a status record
lacking `BCHARGE`, the program does not print `UPS UNKNOWN - ...`/exit 3:
the `except exception` clause in `getValue` names an undefined identifier,
so the lookup failure turns into a `NameError` that no handler catches and
the process dies with a traceback and exit status 1. -/
theorem C2_missing_key_crash :
    runCheck chargeWarnOnly noChargeLines = .crash .nameError ∧
      exitCode (runCheck chargeWarnOnly noChargeLines) = 1 := by
  exact ⟨rfl, rfl⟩

/-- C6: the aggregation step of the main block is exactly a `max` (so equal
or lower severities never regress the running status), and running one
additional metric block never decreases the running status. -/
theorem C6_aggregation_monotone :
    (∀ s n : ℕ, aggStep s n = max s n) ∧
    (∀ (info : Str → Option Str) (aok : Bool) (warn crit : Option ℚ) (key : Str)
       (tf pf : ℚ → Str) (st st' : CheckState),
       metricStep info aok warn crit key tf pf st = .ok st' → st.status ≤ st'.status) := by
  constructor
  · intro s n
    unfold aggStep
    rw [Nat.max_def]
    split_ifs <;> omega
  · intro info aok warn crit key tf pf st st' h
    unfold metricStep at h
    split at h
    · cases hv : getValue info key with
      | error e => rw [hv] at h; cases h
      | ok v =>
        rw [hv] at h
        cases aok
        · simp only [Bool.false_eq_true, if_false, Except.ok.injEq] at h
          subst h
          show st.status ≤ aggStep st.status _
          unfold aggStep
          split <;> omega
        · simp only [eq_self_iff_true, if_true, Except.ok.injEq] at h
          subst h
          exact le_refl _
    · cases h; exact le_refl _

/-- Witness for C6: one metric block at a breached warning threshold raises
the running status from 0 to 1. -/
theorem C6_aggregation_monotone_witness :
    (⟨0, [], []⟩ : CheckState).status ≤ (⟨1, [[]], [[]]⟩ : CheckState).status :=
  C6_aggregation_monotone.2 (fun _ => some (("50.0 Percent").data)) false (some 70) none
    [] (fun _ => []) (fun _ => []) ⟨0, [], []⟩ ⟨1, [[]], [[]]⟩ rfl

/-- C10: a warn or crit threshold supplied as exactly `0` behaves as if it
were not provided: `checkValue` treats it like `none` in both directions,
and when both of a metric's thresholds are falsy (zero or absent) the metric
block is skipped entirely, producing no text or perfdata fragments and no
score.  `some 0` is indeed falsy. -/
theorem C10_zero_threshold_unset :
    (∀ (val : ℚ) (warn : Option ℚ) (dir : Bool),
       checkValue val warn (some 0) dir = checkValue val warn none dir) ∧
    (∀ (val : ℚ) (crit : Option ℚ) (dir : Bool),
       checkValue val (some 0) crit dir = checkValue val none crit dir) ∧
    (∀ (info : Str → Option Str) (aok : Bool) (key : Str) (tf pf : ℚ → Str)
       (st : CheckState) (warn crit : Option ℚ), ¬ truthy warn → ¬ truthy crit →
       metricStep info aok warn crit key tf pf st = .ok st) ∧
    ¬ truthy (some (0 : ℚ)) := by
  refine ⟨?_, ?_, ?_, by simp [truthy]⟩
  · intro val warn dir; simp [checkValue, truthy]
  · intro val crit dir; simp [checkValue, truthy]
  · intro info aok key tf pf st warn crit hw hc
    unfold metricStep
    rw [if_neg (by tauto)]

/-- Witness for C10: a metric whose only threshold is a literal `0` is
neither displayed nor scored. -/
theorem C10_zero_threshold_unset_witness :
    metricStep (fun _ => some (("50.0 Percent").data)) false (some 0) none
      (("BCHARGE").data) chargeText chargePerf ⟨0, [], []⟩ = .ok ⟨0, [], []⟩ :=
  C10_zero_threshold_unset.2.2.1 (fun _ => some (("50.0 Percent").data)) false
    (("BCHARGE").data) chargeText chargePerf ⟨0, [], []⟩ (some 0) none
    (by simp [truthy]) (by simp [truthy])

/-- C8 (code bug): an out-of-range `--charge-warn 150` is detected before
the status source is consulted (the result does not depend on `lines`), but
the `raise UnknownPluginException(...)` statement names an undefined class,
so the run dies with an uncaught `NameError` (traceback, exit 1) instead of
printing `UPS UNKNOWN - ...` and exiting 3. -/
theorem C8_bad_threshold_crash (lines : List Str) :
    runCheck badChargeWarn lines = .crash .nameError ∧
      exitCode (runCheck badChargeWarn lines) = 1 := ⟨rfl, rfl⟩

/-- C7 counterexample: on the healthy record with `--charge-warn 50
--charge-crit 20`, the program's actual output has no space between `;` and
`|` (`...charge: 100.0%;| charge=100.0%`), so the output string quoted in
the claim (`...charge: 100.0%; | charge=100.0%`) is not produced. -/
theorem C7_output_spacing_cex :
    runCheck chargeOpts okLines =
      .output (("UPS OK - online, charge: 100.0%;| charge=100.0%\n").data) 0 ∧
    runCheck chargeOpts okLines ≠
      .output (("UPS OK - online, charge: 100.0%; | charge=100.0%\n").data) 0 := by
  exact ⟨rfl, by decide⟩

/-- C7 (corrected): the success-path output is the single line
`UPS <SEVERITY_NAME> - <fragment1>, <fragment2>, ...;` directly followed
(no space) by `| <perf1>,<perf2>,...` when at least one perfdata fragment
exists, terminated by a single newline; on the healthy record with
`--charge-warn 50 --charge-crit 20` the output is
`UPS OK - online, charge: 100.0%;| charge=100.0%` and the exit status 0. -/
theorem C7_success_output :
    (∀ st : CheckState, formatReport st =
      ("UPS ").data ++ stateText st.status ++ (" - ").data ++
        joinWith ((", ").data) st.text ++ (";").data ++
        (if st.perfdata = [] then []
         else ("| ").data ++ joinWith ((",").data) st.perfdata) ++ ("\n").data) ∧
    runCheck chargeOpts okLines =
      .output (("UPS OK - online, charge: 100.0%;| charge=100.0%\n").data) 0 := by
  constructor
  · intro st
    unfold formatReport
    split_ifs <;> simp
  · exact rfl

/-- C4 counterexample: with `TONBATT` positive, no threshold flags, and
`--online` passed, the program prints `UPS CRITICAL - on battery;` and exits
2, not `UPS OK - on battery;`/0 as the claim states: `always_ok` is
`online and not on_batt`, which is false on battery, so the forced override
still fires. -/
theorem C4_online_onBattery_cex :
    runCheck onlineOnly onBattLines =
      .output (("UPS CRITICAL - on battery;\n").data) 2 ∧
    runCheck onlineOnly onBattLines ≠
      .output (("UPS OK - on battery;\n").data) 0 := by
  exact ⟨rfl, by decide⟩

/-- Threshold validation passes whenever both charge thresholds are falsy. -/
theorem validateOptions_falsy (o : Options) (h2 : ¬ truthy o.chargewarn)
    (h3 : ¬ truthy o.chargecrit) : validateOptions o = .ok () := by
  unfold validateOptions
  rw [if_neg (by tauto), if_neg (by tauto)]

/-- On battery with every threshold falsy, the run always prints the forced
CRITICAL report, whatever the online flag is. -/
theorem runCheck_onBatt_noChecks (o : Options) (lines : List Str) (t : ℚ)
    (h2 : ¬ truthy o.chargewarn) (h3 : ¬ truthy o.chargecrit)
    (h4 : ¬ truthy o.timewarn) (h5 : ¬ truthy o.timecrit)
    (h6 : ¬ truthy o.voltwarn) (h7 : ¬ truthy o.voltcrit)
    (ht : getValue (getAPCInfo lines) (("TONBATT").data) = .ok t)
    (hb : 0 < t) :
    runCheck o lines = .output (("UPS CRITICAL - on battery;\n").data) 2 := by
  have hval := validateOptions_falsy o h2 h3
  have hbt : decide (0 < t) = true := decide_eq_true hb
  unfold runCheck evalChecks
  rw [hval, ht]
  simp only [metricStep, exBind_ok, hbt, Bool.not_true, Bool.and_false, if_true, if_false,
    eq_self_iff_true, Bool.false_eq_true,
    if_neg (show ¬(truthy o.chargewarn ∨ truthy o.chargecrit) from by tauto),
    if_neg (show ¬(truthy o.timewarn ∨ truthy o.timecrit) from by tauto),
    if_neg (show ¬(truthy o.voltwarn ∨ truthy o.voltcrit) from by tauto)]
  rfl

/-- C3: when the UPS is on battery (`TONBATT > 0`), no metric check is
requested (every threshold is falsy, so only the base power-state fragment
exists), and the online flag is not set, the overall severity is forced to
CRITICAL: the program prints `UPS CRITICAL - on battery;` with no perfdata
section and exits with status 2. -/
theorem C3_onBattery_forced_critical (o : Options) (lines : List Str) (t : ℚ)
    (honline : o.online = false)
    (h2 : ¬ truthy o.chargewarn) (h3 : ¬ truthy o.chargecrit)
    (h4 : ¬ truthy o.timewarn) (h5 : ¬ truthy o.timecrit)
    (h6 : ¬ truthy o.voltwarn) (h7 : ¬ truthy o.voltcrit)
    (ht : getValue (getAPCInfo lines) (("TONBATT").data) = .ok t)
    (hb : 0 < t) :
    runCheck o lines = .output (("UPS CRITICAL - on battery;\n").data) 2 ∧
      exitCode (runCheck o lines) = 2 := by
  have h := runCheck_onBatt_noChecks o lines t h2 h3 h4 h5 h6 h7 ht hb
  exact ⟨h, by rw [h]; rfl⟩

/-- Witness for C3: the scenario `TONBATT: 120 Seconds` with no flags. -/
theorem C3_onBattery_forced_critical_witness :
    runCheck noThresholds onBattLines =
      .output (("UPS CRITICAL - on battery;\n").data) 2 ∧
      exitCode (runCheck noThresholds onBattLines) = 2 :=
  C3_onBattery_forced_critical noThresholds onBattLines 120 rfl
    (by simp [truthy, noThresholds]) (by simp [truthy, noThresholds])
    (by simp [truthy, noThresholds]) (by simp [truthy, noThresholds])
    (by simp [truthy, noThresholds]) (by simp [truthy, noThresholds])
    rfl (by norm_num)

/-- C4 (corrected): when the UPS is on battery, no threshold flag is given
and `--online` is passed, the forced override is *not* suppressed:
`always_ok` is `online and not on_batt`, which is false on battery, so the
program still prints `UPS CRITICAL - on battery;` and exits with status 2. -/
theorem C4_online_onBattery_still_critical (o : Options) (lines : List Str) (t : ℚ)
    (honline : o.online = true)
    (h2 : ¬ truthy o.chargewarn) (h3 : ¬ truthy o.chargecrit)
    (h4 : ¬ truthy o.timewarn) (h5 : ¬ truthy o.timecrit)
    (h6 : ¬ truthy o.voltwarn) (h7 : ¬ truthy o.voltcrit)
    (ht : getValue (getAPCInfo lines) (("TONBATT").data) = .ok t)
    (hb : 0 < t) :
    runCheck o lines = .output (("UPS CRITICAL - on battery;\n").data) 2 ∧
      exitCode (runCheck o lines) = 2 := by
  have h := runCheck_onBatt_noChecks o lines t h2 h3 h4 h5 h6 h7 ht hb
  exact ⟨h, by rw [h]; rfl⟩

/-- Witness for C4 (corrected): the scenario `TONBATT: 120 Seconds` with
only the online flag. -/
theorem C4_online_onBattery_still_critical_witness :
    runCheck onlineOnly onBattLines =
      .output (("UPS CRITICAL - on battery;\n").data) 2 ∧
      exitCode (runCheck onlineOnly onBattLines) = 2 :=
  C4_online_onBattery_still_critical onlineOnly onBattLines 120 rfl
    (by simp [truthy, onlineOnly]) (by simp [truthy, onlineOnly])
    (by simp [truthy, onlineOnly]) (by simp [truthy, onlineOnly])
    (by simp [truthy, onlineOnly]) (by simp [truthy, onlineOnly])
    rfl (by norm_num)

/-- Frame property of a metric block: a block run with `always_ok = true`
keeps the status unchanged, and a block run with any flag from a state with
the same text and perfdata succeeds with the same text and perfdata. -/
theorem metricStep_alwaysOk (info : Str → Option Str) (w c : Option ℚ) (key : Str)
    (tf pf : ℚ → Str) (b : Bool) (s1 s2 u1 : CheckState)
    (h : metricStep info true w c key tf pf s1 = .ok u1)
    (ht : s2.text = s1.text) (hp : s2.perfdata = s1.perfdata) :
    u1.status = s1.status ∧
      ∃ u2, metricStep info b w c key tf pf s2 = .ok u2 ∧
        u2.text = u1.text ∧ u2.perfdata = u1.perfdata := by
  unfold metricStep at h ⊢
  by_cases hg : truthy w ∨ truthy c
  · rw [if_pos hg] at h ⊢
    cases hv : getValue info key with
    | error e =>
      rw [hv] at h
      cases h
    | ok v =>
      rw [hv] at h
      simp only [eq_self_iff_true, if_true, Except.ok.injEq] at h
      subst h
      refine ⟨rfl, ?_⟩
      cases b
      · simp only [Bool.false_eq_true, if_false, Except.ok.injEq]
        exact ⟨_, rfl, by simp [ht], by simp [hp]⟩
      · simp only [eq_self_iff_true, if_true, Except.ok.injEq]
        exact ⟨_, rfl, by simp [ht], by simp [hp]⟩
  · rw [if_neg hg] at h ⊢
    cases h
    exact ⟨rfl, s2, rfl, ht, hp⟩

/-- C5: when `always_ok` holds (online flag set and the UPS not on battery),
every per-metric threshold evaluation is suppressed — the run's overall
severity is OK and its exit status 0 regardless of any threshold breach —
while the text and perfdata fragments are exactly those of the same run
without the online flag. -/
theorem C5_alwaysOk_suppression (o : Options) (lines : List Str) (t : ℚ) (st : CheckState)
    (honline : o.online = true)
    (ht : getValue (getAPCInfo lines) (("TONBATT").data) = .ok t)
    (hwall : ¬ 0 < t)
    (hrun : evalChecks o lines = .ok st) :
    st.status = 0 ∧ runCheck o lines = .output (formatReport st) 0 ∧
      ∃ st2, evalChecks { o with online := false } lines = .ok st2 ∧
        st2.text = st.text ∧ st2.perfdata = st.perfdata := by
  have hrun0 := hrun
  have hbt : decide (0 < t) = false := decide_eq_false hwall
  unfold evalChecks at hrun ⊢
  cases hval : validateOptions o with
  | error e => rw [hval] at hrun; cases hrun
  | ok u =>
    have hval' : validateOptions { o with online := false } = .ok u := hval
    rw [hval] at hrun
    rw [hval', ht]
    rw [ht] at hrun
    simp only [hbt, Bool.not_false, honline, Bool.true_and, Bool.false_eq_true, if_false,
      Bool.false_and] at hrun ⊢
    cases hs1 : metricStep (getAPCInfo lines) true o.chargewarn o.chargecrit (("BCHARGE").data)
        chargeText chargePerf ⟨0, [("online").data], []⟩ with
    | error e => rw [hs1] at hrun; cases hrun
    | ok st1 =>
      simp only [hs1, exBind_ok] at hrun
      obtain ⟨h1s, w1, hw1, hw1t, hw1p⟩ := metricStep_alwaysOk (getAPCInfo lines)
        o.chargewarn o.chargecrit (("BCHARGE").data) chargeText chargePerf false
        ⟨0, [("online").data], []⟩ ⟨0, [("online").data], []⟩ st1 hs1 rfl rfl
      cases hs2 : metricStep (getAPCInfo lines) true o.timewarn o.timecrit (("TIMELEFT").data)
          runtimeText runtimePerf st1 with
      | error e => rw [hs2] at hrun; cases hrun
      | ok st2 =>
        simp only [hs2, exBind_ok] at hrun
        obtain ⟨h2s, w2, hw2, hw2t, hw2p⟩ := metricStep_alwaysOk (getAPCInfo lines)
          o.timewarn o.timecrit (("TIMELEFT").data) runtimeText runtimePerf false
          st1 w1 st2 hs2 hw1t hw1p
        cases hs3 : metricStep (getAPCInfo lines) true o.voltwarn o.voltcrit (("BATTV").data)
            voltText voltPerf st2 with
        | error e => rw [hs3] at hrun; cases hrun
        | ok st3 =>
          simp only [hs3, exBind_ok, Except.ok.injEq] at hrun
          subst hrun
          obtain ⟨h3s, w3, hw3, hw3t, hw3p⟩ := metricStep_alwaysOk (getAPCInfo lines)
            o.voltwarn o.voltcrit (("BATTV").data) voltText voltPerf false
            st2 w2 st3 hs3 hw2t hw2p
          have hstatus : st3.status = 0 := by rw [h3s, h2s, h1s]
          refine ⟨hstatus, ?_, ?_⟩
          · unfold runCheck
            simp only [hrun0, hstatus]
          · refine ⟨w3, ?_, hw3t, hw3p⟩
            simp only [hw1, exBind_ok, hw2, hw3]

/-- Witness for C5: `--online --charge-warn 50 --charge-crit 20` on a record
with charge 10.0 (a critical breach): the run stays OK with the same
fragments as the run without the flag. -/
theorem C5_alwaysOk_suppression_witness :
    (⟨0, [("online").data, ("charge: 10.0%").data], [("charge=10.0%").data]⟩ :
        CheckState).status = 0 ∧
    runCheck onlineChargeOpts lowChargeLines =
      .output (formatReport
        ⟨0, [("online").data, ("charge: 10.0%").data], [("charge=10.0%").data]⟩) 0 ∧
    ∃ st2, evalChecks { onlineChargeOpts with online := false } lowChargeLines = .ok st2 ∧
      st2.text = [("online").data, ("charge: 10.0%").data] ∧
      st2.perfdata = [("charge=10.0%").data] :=
  C5_alwaysOk_suppression onlineChargeOpts lowChargeLines 0
    ⟨0, [("online").data, ("charge: 10.0%").data], [("charge=10.0%").data]⟩
    rfl rfl (by norm_num) rfl

theorem takeWhile_append_all {p : Char → Bool} {l r : Str} (h : ∀ c ∈ l, p c = true) :
    List.takeWhile p (l ++ r) = l ++ List.takeWhile p r := by
  induction l with
  | nil => rfl
  | cons a t ih =>
    rw [List.cons_append, List.takeWhile_cons, if_pos (h a (by simp)), List.cons_append,
      ih (fun c hc => h c (by simp [hc]))]

theorem takeWhile_all {p : Char → Bool} {l : Str} (h : ∀ c ∈ l, p c = true) :
    List.takeWhile p l = l := by
  have := takeWhile_append_all (r := []) h
  simpa using this

theorem takeWhile_digits_stop {r : Str} (hr : spaceTail r) :
    List.takeWhile Char.isDigit r = [] := by
  rcases hr with rfl | ⟨r', rfl⟩
  · rfl
  · rw [List.takeWhile_cons, if_neg (by decide)]

theorem takeWhile_digits_chunk {intDs rest : Str}
    (hint : ∀ c ∈ intDs, c.isDigit = true)
    (hstop : List.takeWhile Char.isDigit rest = []) :
    List.takeWhile Char.isDigit (intDs ++ rest) = intDs := by
  rw [takeWhile_append_all hint, hstop, List.append_nil]

theorem dropWhile_eq_drop (p : Char → Bool) (l : Str) :
    ∃ n, List.dropWhile p l = l.drop n ∧ ∀ c ∈ l.take n, p c = true := by
  induction l with
  | nil => exact ⟨0, rfl, by simp⟩
  | cons a t ih =>
    by_cases h : p a
    · obtain ⟨n, h1, h2⟩ := ih
      refine ⟨n + 1, ?_, ?_⟩
      · rw [List.dropWhile_cons, if_pos h, List.drop_succ_cons, h1]
      · intro c hc
        rw [List.take_succ_cons] at hc
        rcases List.mem_cons.mp hc with rfl | hc
        · exact h
        · exact h2 c hc
    · exact ⟨0, by rw [List.dropWhile_cons, if_neg h, List.drop_zero], by simp⟩

theorem trimStr_decomp (s : Str)
    (hhead : ∀ c ∈ s.take 1, c.isWhitespace = false) :
    ∃ u w, s = u ++ w ∧ trimStr s = u ∧ ∀ c ∈ w, c.isWhitespace = true := by
  have hfront : s.dropWhile Char.isWhitespace = s := by
    cases s with
    | nil => rfl
    | cons a t =>
      rw [List.dropWhile_cons, if_neg]
      simp only [List.take_succ_cons, List.take_zero] at hhead
      simp [hhead a (by simp)]
  obtain ⟨n, h1, h2⟩ := dropWhile_eq_drop Char.isWhitespace s.reverse
  refine ⟨(s.reverse.drop n).reverse, (s.reverse.take n).reverse, ?_, ?_, ?_⟩
  · rw [← List.reverse_append, List.take_append_drop, List.reverse_reverse]
  · unfold trimStr
    rw [hfront, h1]
  · intro c hc
    exact h2 c (List.mem_reverse.mp hc)

theorem not_ws_of_digit {c : Char} (h : c.isDigit = true) : c.isWhitespace = false := by
  by_contra hws
  rw [Bool.not_eq_false] at hws
  simp only [Char.isWhitespace, Bool.or_eq_true, decide_eq_true_eq] at hws
  rcases hws with ((rfl | rfl) | rfl) | rfl <;> simp [Char.isDigit] at h

theorem numStr_ne_nil (n : NumSpec) (hn : n.wf) : n.str ≠ [] := by
  obtain ⟨hsign, hint, hfrac, hne⟩ := hn
  unfold NumSpec.str
  intro habs
  rcases List.append_eq_nil.mp habs with ⟨h1, h2⟩
  rcases List.append_eq_nil.mp h1 with ⟨hs, hi⟩
  rcases hne with h | h
  · exact h hi
  · cases hfo : n.fracDs with
    | none => rw [hfo] at h; simp at h
    | some f => rw [hfo] at h2; simp at h2
theorem numStr_head_not_ws (n : NumSpec) (hn : n.wf) :
    ∀ c ∈ n.str.take 1, c.isWhitespace = false := by
  obtain ⟨hsign, hint, hfrac, hne⟩ := hn
  intro c hc
  rcases hsign with hs | hs | hs
  · rw [NumSpec.str, hs, List.nil_append] at hc
    cases hi : n.intDs with
    | cons a t =>
      rw [hi, List.cons_append, List.take_succ_cons, List.take_zero] at hc
      rcases List.mem_singleton.mp hc with rfl
      exact not_ws_of_digit (hint c (by rw [hi]; simp))
    | nil =>
      rw [hi, List.nil_append] at hc
      cases hfo : n.fracDs with
      | none => rw [hfo] at hc; simp at hc
      | some f =>
        rw [hfo] at hc
        simp only [List.take_succ_cons, List.take_zero] at hc
        rcases List.mem_singleton.mp hc with rfl
        decide
  · rw [NumSpec.str, hs] at hc
    simp only [List.cons_append, List.take_succ_cons, List.take_zero] at hc
    rcases List.mem_singleton.mp hc with rfl
    decide
  · rw [NumSpec.str, hs] at hc
    simp only [List.cons_append, List.take_succ_cons, List.take_zero] at hc
    rcases List.mem_singleton.mp hc with rfl
    decide

theorem numStr_last_not_ws (n : NumSpec) (hn : n.wf) (c : Char)
    (hc : n.str.getLast? = some c) : c.isWhitespace = false := by
  obtain ⟨hsign, hint, hfrac, hne⟩ := hn
  cases hfo : n.fracDs with
  | some f =>
    have hstr : n.str = ((match n.sign with | some c => [c] | none => []) ++ n.intDs)
        ++ ('.' :: f) := by
      unfold NumSpec.str; rw [hfo]
    rw [hstr, List.getLast?_append_of_ne_nil _ (by simp)] at hc
    rcases List.eq_nil_or_concat f with rfl | ⟨f', a, hcat⟩
    · simp only [List.getLast?_singleton, Option.some.injEq] at hc
      subst hc; decide
    · rw [hcat, List.concat_eq_append, show ('.' :: (f' ++ [a])) = ('.' :: f') ++ [a] by simp,
        List.getLast?_concat, Option.some.injEq] at hc
      subst hc
      have ha : a ∈ n.fracDs.getD [] := by rw [hfo, hcat]; simp
      exact not_ws_of_digit (hfrac _ ha)
  | none =>
    have hi : n.intDs ≠ [] := by
      rcases hne with h | h
      · exact h
      · rw [hfo] at h; simp at h
    have hstr : n.str = (match n.sign with | some c => [c] | none => []) ++ n.intDs := by
      unfold NumSpec.str; rw [hfo, List.append_nil]
    rw [hstr, List.getLast?_append_of_ne_nil _ hi] at hc
    rcases List.eq_nil_or_concat n.intDs with hnil | ⟨f', a, hcat⟩
    · exact absurd hnil hi
    · rw [hcat, List.concat_eq_append, List.getLast?_concat, Option.some.injEq] at hc
      subst hc
      have ha : a ∈ n.intDs := by rw [hcat]; simp
      exact not_ws_of_digit (hint _ ha)

theorem trim_numVal (n : NumSpec) (hn : n.wf) (unit : Str) :
    ∃ r, trimStr (n.str ++ ' ' :: unit) = n.str ++ r ∧ spaceTail r := by
  have hhead : ∀ c ∈ (n.str ++ ' ' :: unit).take 1, c.isWhitespace = false := by
    intro c hc
    cases hs : n.str with
    | nil => exact absurd hs (numStr_ne_nil n hn)
    | cons a t =>
      rw [hs, List.cons_append, List.take_succ_cons, List.take_zero] at hc
      rcases List.mem_singleton.mp hc with rfl
      exact numStr_head_not_ws n hn c (by rw [hs]; simp)
  obtain ⟨u, w, hsplit, htrim, hws⟩ := trimStr_decomp (n.str ++ ' ' :: unit) hhead
  rcases List.append_eq_append_iff.mp hsplit.symm with ⟨xs, hu, hxw⟩ | ⟨ys, hstr, hw⟩
  · rcases List.eq_nil_or_concat xs with rfl | ⟨ys2, a, hcat⟩
    · refine ⟨[], ?_, Or.inl rfl⟩
      rw [htrim, List.append_nil] at *
      rw [hu]
    · exfalso
      have hlast : n.str.getLast? = some a := by
        rw [hu, hcat, List.concat_eq_append, ← List.append_assoc, List.getLast?_concat]
      have haw : a.isWhitespace = true := by
        apply hws
        rw [hxw, hcat, List.concat_eq_append]
        simp
      rw [numStr_last_not_ws n hn a hlast] at haw
      cases haw
  · refine ⟨ys, by rw [htrim, hstr], ?_⟩
    cases hy : ys with
    | nil => exact Or.inl rfl
    | cons y yt =>
      rw [hy, List.cons_append] at hw
      injection hw with h1 h2
      subst h1
      exact Or.inr ⟨yt, rfl⟩

theorem digit_not_sign {c : Char} (h : c.isDigit = true) : ¬(c = '-' ∨ c = '+') := by
  rintro (rfl | rfl) <;> simp [Char.isDigit] at h

theorem take1_spaceTail {r : Str} (hr : spaceTail r) : r.take 1 ≠ ['.'] := by
  rcases hr with rfl | ⟨r', rfl⟩
  · simp
  · rw [List.take_succ_cons, List.take_zero]
    decide

theorem fracPart_stop (fo : Option Str) (r : Str) (hr : spaceTail r) :
    List.takeWhile Char.isDigit ((match fo with | some f => '.' :: f | none => []) ++ r)
      = [] := by
  cases fo with
  | some f => rw [List.cons_append, List.takeWhile_cons, if_neg (by decide)]
  | none => rw [List.nil_append]; exact takeWhile_digits_stop hr

theorem scan_d1 (n : NumSpec) (hint : ∀ c ∈ n.intDs, c.isDigit = true) (r : Str)
    (hr : spaceTail r) :
    List.takeWhile Char.isDigit
      ((n.intDs ++ (match n.fracDs with | some f => '.' :: f | none => [])) ++ r)
      = n.intDs := by
  rw [List.append_assoc]
  exact takeWhile_digits_chunk hint (fracPart_stop n.fracDs r hr)

theorem scan_s2 (n : NumSpec) (r : Str) :
    ((n.intDs ++ (match n.fracDs with | some f => '.' :: f | none => [])) ++ r).drop
        n.intDs.length
      = (match n.fracDs with | some f => '.' :: f | none => []) ++ r := by
  rw [List.append_assoc]
  exact List.drop_left _ _

theorem findallHead_numStr (n : NumSpec) (hn : n.wf) (r : Str) (hr : spaceTail r) :
    findallHead (n.str ++ r) = n.str := by
  obtain ⟨hsign, hint, hfrac, hne⟩ := hn
  have hdot : ¬(('.' : Char).isDigit = true) := by decide
  rcases hsign with hs0 | hs0 | hs0
  · have hstr : n.str = n.intDs ++ (match n.fracDs with | some f => '.' :: f | none => []) := by
      unfold NumSpec.str
      rw [hs0, List.nil_append]
    cases hi : n.intDs with
    | cons a t =>
      have hne2 : ¬(a = '-' ∨ a = '+') := digit_not_sign (hint a (by rw [hi]; simp))
      have hshape : n.str ++ r
          = a :: ((t ++ (match n.fracDs with | some f => '.' :: f | none => [])) ++ r) := by
        rw [hstr, hi]
        simp
      rw [hshape]
      unfold findallHead
      simp only [if_neg hne2]
      have hback : a :: ((t ++ (match n.fracDs with | some f => '.' :: f | none => [])) ++ r)
          = (n.intDs ++ (match n.fracDs with | some f => '.' :: f | none => [])) ++ r := by
        rw [hi]
        simp
      rw [hback, scan_d1 n hint r hr, scan_s2 n r]
      cases hfo : n.fracDs with
      | some f =>
        simp only [List.cons_append, List.take_succ_cons, List.take_zero, eq_self_iff_true,
          if_true, List.drop_succ_cons, List.drop_zero]
        rw [takeWhile_digits_chunk (by rw [hfo] at hfrac; exact hfrac) (takeWhile_digits_stop hr),
          hstr, hfo]
        simp
      | none =>
        rw [List.nil_append, if_neg (take1_spaceTail hr), hstr, hfo]
        simp
    | nil =>
      cases hfo : n.fracDs with
      | none =>
        exfalso
        rcases hne with h | h
        · exact h hi
        · rw [hfo] at h
          simp at h
      | some f =>
        have hshape : n.str ++ r = '.' :: (f ++ r) := by
          rw [hstr, hi, hfo]
          simp
        rw [hshape]
        unfold findallHead
        simp only [if_neg (show ¬(('.' : Char) = '-' ∨ ('.' : Char) = '+') from by decide)]
        rw [List.takeWhile_cons, if_neg hdot]
        simp only [List.length_nil, List.drop_zero, List.take_succ_cons, List.take_zero,
          eq_self_iff_true, if_true, List.drop_succ_cons]
        rw [takeWhile_digits_chunk (by rw [hfo] at hfrac; exact hfrac)
            (takeWhile_digits_stop hr), hstr, hi, hfo]
        simp
  · have hshape : n.str ++ r
        = '-' :: ((n.intDs ++ (match n.fracDs with | some f => '.' :: f | none => [])) ++ r) := by
      unfold NumSpec.str
      rw [hs0]
      simp
    rw [hshape]
    unfold findallHead
    simp only [eq_self_iff_true, true_or, or_true, if_true]
    rw [scan_d1 n hint r hr, scan_s2 n r]
    cases hfo : n.fracDs with
    | some f =>
      simp only [List.cons_append, List.take_succ_cons, List.take_zero, eq_self_iff_true,
        if_true, List.drop_succ_cons, List.drop_zero]
      rw [takeWhile_digits_chunk (by rw [hfo] at hfrac; exact hfrac) (takeWhile_digits_stop hr)]
      unfold NumSpec.str
      rw [hs0, hfo]
      simp
    | none =>
      rw [List.nil_append, if_neg (take1_spaceTail hr)]
      unfold NumSpec.str
      rw [hs0, hfo]
      simp
  · have hshape : n.str ++ r
        = '+' :: ((n.intDs ++ (match n.fracDs with | some f => '.' :: f | none => [])) ++ r) := by
      unfold NumSpec.str
      rw [hs0]
      simp
    rw [hshape]
    unfold findallHead
    simp only [eq_self_iff_true, true_or, or_true, if_true]
    rw [scan_d1 n hint r hr, scan_s2 n r]
    cases hfo : n.fracDs with
    | some f =>
      simp only [List.cons_append, List.take_succ_cons, List.take_zero, eq_self_iff_true,
        if_true, List.drop_succ_cons, List.drop_zero]
      rw [takeWhile_digits_chunk (by rw [hfo] at hfrac; exact hfrac) (takeWhile_digits_stop hr)]
      unfold NumSpec.str
      rw [hs0, hfo]
      simp
    | none =>
      rw [List.nil_append, if_neg (take1_spaceTail hr)]
      unfold NumSpec.str
      rw [hs0, hfo]
      simp

theorem fracPart_stop2 (fo : Option Str) :
    List.takeWhile Char.isDigit (match fo with | some f => '.' :: f | none => []) = [] := by
  cases fo with
  | some f => rw [List.takeWhile_cons, if_neg (by decide)]
  | none => rfl

theorem scan2_d1 (n : NumSpec) (hint : ∀ c ∈ n.intDs, c.isDigit = true) :
    List.takeWhile Char.isDigit
      (n.intDs ++ (match n.fracDs with | some f => '.' :: f | none => []))
      = n.intDs :=
  takeWhile_digits_chunk hint (fracPart_stop2 n.fracDs)

theorem scan2_s2 (n : NumSpec) :
    (n.intDs ++ (match n.fracDs with | some f => '.' :: f | none => [])).drop
        n.intDs.length
      = (match n.fracDs with | some f => '.' :: f | none => []) :=
  List.drop_left _ _

theorem pyFloat_tail (n : NumSpec) (hint : ∀ c ∈ n.intDs, c.isDigit = true)
    (hfrac : ∀ c ∈ n.fracDs.getD [], c.isDigit = true)
    (hne : n.intDs ≠ [] ∨ n.fracDs.getD [] ≠ []) (sgn : Bool) :
    (if ((if ((match n.fracDs with | some f => '.' :: f | none => []).take 1 = ['.']) then
            ((match n.fracDs with | some f => '.' :: f | none => []).drop 1).drop
              (if ((match n.fracDs with | some f => '.' :: f | none => []).take 1 = ['.']) then
                ((match n.fracDs with | some f => '.' :: f | none => []).drop 1).takeWhile
                  Char.isDigit
              else ([] : Str)).length
          else (match n.fracDs with | some f => '.' :: f | none => [])) = []
        ∧ (n.intDs ≠ [] ∨
           (if ((match n.fracDs with | some f => '.' :: f | none => []).take 1 = ['.']) then
             ((match n.fracDs with | some f => '.' :: f | none => []).drop 1).takeWhile
               Char.isDigit
           else []) ≠ [])) then
      some (mkRat ((if sgn then (-1 : ℤ) else 1) *
        (natOfDigits (n.intDs ++
          (if ((match n.fracDs with | some f => '.' :: f | none => []).take 1 = ['.']) then
            ((match n.fracDs with | some f => '.' :: f | none => []).drop 1).takeWhile
              Char.isDigit
          else [])) : ℤ))
        (10 ^ (if ((match n.fracDs with | some f => '.' :: f | none => []).take 1 = ['.']) then
            ((match n.fracDs with | some f => '.' :: f | none => []).drop 1).takeWhile
              Char.isDigit
          else []).length))
    else none) =
    some (mkRat ((if sgn then (-1 : ℤ) else 1) * (natOfDigits (n.intDs ++ n.fracDs.getD []) : ℤ))
      (10 ^ (n.fracDs.getD []).length)) := by
  cases hfo : n.fracDs with
  | some f =>
    have hf : ∀ c ∈ f, c.isDigit = true := by rw [hfo] at hfrac; exact hfrac
    simp only [List.take_succ_cons, List.take_zero, eq_self_iff_true, if_true,
      List.drop_succ_cons, List.drop_zero, takeWhile_all hf, List.drop_length,
      Option.getD_some, true_and]
    rw [if_pos]
    rcases hne with h | h
    · exact Or.inl h
    · rw [hfo, Option.getD_some] at h
      exact Or.inr h
  | none =>
    have hi : n.intDs ≠ [] := by
      rcases hne with h | h
      · exact h
      · rw [hfo] at h; simp at h
    rw [if_neg (show ¬((([] : Str)).take 1 = ['.']) from by simp),
      if_pos ⟨rfl, Or.inl hi⟩]
    simp

theorem pyFloat_numStr (n : NumSpec) (hn : n.wf) : pyFloat n.str = some n.val := by
  obtain ⟨hsign, hint, hfrac, hne⟩ := hn
  have hdot : ¬(('.' : Char).isDigit = true) := by decide
  rcases hsign with hs0 | hs0 | hs0
  · have hstr : n.str = n.intDs ++ (match n.fracDs with | some f => '.' :: f | none => []) := by
      unfold NumSpec.str
      rw [hs0, List.nil_append]
    cases hi : n.intDs with
    | cons a t =>
      have hne2 : ¬(a = '-' ∨ a = '+') := digit_not_sign (hint a (by rw [hi]; simp))
      have hbeq : (a == '-') = false := by
        rw [beq_eq_false_iff_ne]
        intro h
        exact hne2 (Or.inl h)
      have hshape : n.str
          = a :: (t ++ (match n.fracDs with | some f => '.' :: f | none => [])) := by
        rw [hstr, hi, List.cons_append]
      rw [hshape]
      unfold pyFloat
      simp only [if_neg hne2, hbeq]
      have hback : a :: (t ++ (match n.fracDs with | some f => '.' :: f | none => []))
          = n.intDs ++ (match n.fracDs with | some f => '.' :: f | none => []) := by
        rw [hi, List.cons_append]
      rw [hback, scan2_d1 n hint, scan2_s2 n]
      refine Eq.trans (pyFloat_tail n hint hfrac hne false) ?_
      unfold NumSpec.val
      rw [hs0]
      simp
    | nil =>
      cases hfo : n.fracDs with
      | none =>
        exfalso
        rcases hne with h | h
        · exact h hi
        · rw [hfo] at h
          simp at h
      | some f =>
        have hf : ∀ c ∈ f, c.isDigit = true := by rw [hfo] at hfrac; exact hfrac
        have hfne : f ≠ [] := by
          rcases hne with h | h
          · exact absurd hi h
          · rw [hfo, Option.getD_some] at h
            exact h
        have hshape : n.str = '.' :: f := by
          rw [hstr, hi, hfo]
          simp
        rw [hshape]
        unfold pyFloat
        simp only [if_neg (show ¬(('.' : Char) = '-' ∨ ('.' : Char) = '+') from by decide),
          show (('.' : Char) == '-') = false from by decide]
        rw [List.takeWhile_cons, if_neg hdot]
        simp only [List.length_nil, List.drop_zero, List.take_succ_cons, List.take_zero,
          eq_self_iff_true, if_true, List.drop_succ_cons, takeWhile_all hf, List.drop_length,
          List.nil_append]
        rw [if_pos ⟨trivial, Or.inr hfne⟩]
        unfold NumSpec.val
        rw [hs0, hfo, hi]
        simp
  · have hshape : n.str
        = '-' :: (n.intDs ++ (match n.fracDs with | some f => '.' :: f | none => [])) := by
      unfold NumSpec.str
      rw [hs0]
      simp
    rw [hshape]
    unfold pyFloat
    simp only [eq_self_iff_true, true_or, or_true, if_true,
      show (('-' : Char) == '-') = true from by decide]
    rw [scan2_d1 n hint, scan2_s2 n]
    refine Eq.trans (pyFloat_tail n hint hfrac hne true) ?_
    unfold NumSpec.val
    rw [hs0]
    simp
  · have hshape : n.str
        = '+' :: (n.intDs ++ (match n.fracDs with | some f => '.' :: f | none => [])) := by
      unfold NumSpec.str
      rw [hs0]
      simp
    rw [hshape]
    unfold pyFloat
    simp only [eq_self_iff_true, true_or, or_true, if_true,
      show (('+' : Char) == '-') = false from by decide]
    rw [scan2_d1 n hint, scan2_s2 n]
    refine Eq.trans (pyFloat_tail n hint hfrac hne false) ?_
    unfold NumSpec.val
    rw [hs0]
    simp

theorem parseLine_entry (d : Str → Option Str) (k v : Str)
    (hk : trimStr k = k) (hcol : ':' ∉ k) :
    parseLine d (k ++ ':' :: v) = fun x => if x = k then some (trimStr v) else d x := by
  have h1 : (k ++ ':' :: v).takeWhile (fun c => c != ':') = k := by
    rw [takeWhile_append_all (fun c hc => bne_iff_ne.mpr (by intro h; subst h; exact hcol hc)),
      List.takeWhile_cons]
    rw [if_neg (by simp)]
    rw [List.append_nil]
  have h2 : (k ++ ':' :: v).drop (k.length + 1) = v := by
    rw [show k ++ ':' :: v = (k ++ [':']) ++ v from by simp,
      show k.length + 1 = (k ++ [':']).length from by simp]
    exact List.drop_left _ _
  have hc : (k ++ ':' :: v).contains ':' = true := List.elem_iff.mpr (by simp)
  unfold parseLine
  rw [if_pos hc]
  simp only [h1, h2, hk]

theorem foldl_parseLine_notmem (entries : List Entry) (d : Str → Option Str) (x : Str)
    (hwf : ∀ e ∈ entries, e.wf)
    (hx : ∀ e ∈ entries, e.key ≠ x) :
    (entries.map Entry.line).foldl parseLine d x = d x := by
  induction entries generalizing d with
  | nil => rfl
  | cons a l ih =>
    rw [List.map_cons, List.foldl_cons]
    rw [ih (parseLine d a.line) (fun e he => hwf e (by simp [he]))
      (fun e he => hx e (by simp [he]))]
    obtain ⟨hk, hcol, hnum⟩ := hwf a (by simp)
    simp only [show a.line = a.key ++ ':' :: (a.num.str ++ ' ' :: a.unit) from rfl,
      parseLine_entry d _ _ hk hcol]
    rw [if_neg (fun h => hx a (by simp) h.symm)]

theorem foldl_parseLine_entry (entries : List Entry) (d : Str → Option Str) (e : Entry)
    (hwf : ∀ x ∈ entries, x.wf)
    (hnd : (entries.map Entry.key).Nodup)
    (he : e ∈ entries) :
    (entries.map Entry.line).foldl parseLine d e.key
      = some (trimStr (e.num.str ++ ' ' :: e.unit)) := by
  induction entries generalizing d with
  | nil => cases he
  | cons a l ih =>
    rw [List.map_cons, List.foldl_cons]
    rcases List.mem_cons.mp he with rfl | he2
    · have hnotin : e.key ∉ l.map Entry.key := (List.nodup_cons.mp (by simpa using hnd)).1
      rw [foldl_parseLine_notmem l (parseLine d e.line) e.key
        (fun x hx => hwf x (by simp [hx]))
        (fun x hx hkey => hnotin (hkey ▸ List.mem_map_of_mem Entry.key hx))]
      obtain ⟨hk, hcol, hnum⟩ := hwf e (by simp)
      simp only [show e.line = e.key ++ ':' :: (e.num.str ++ ' ' :: e.unit) from rfl,
        parseLine_entry d _ _ hk hcol]
      rw [if_pos trivial]
    · exact ih (parseLine d a.line) (fun x hx => hwf x (by simp [hx]))
        ((List.nodup_cons.mp (by simpa using hnd)).2) he2

/-- C9: parser-extractor round trip.  For every status text whose lines map
distinct wellformed keys to values of the form `<num> <unit>` with `<num>` a
signed decimal token, parsing the text (`getAPCInfo`) and then extracting any
of its keys as a float (`getValue`) returns exactly the rational value
denoted by that key's `<num>`. -/
theorem C9_parse_extract_roundtrip (entries : List Entry)
    (hwf : ∀ e ∈ entries, e.wf)
    (hnd : (entries.map Entry.key).Nodup)
    (e : Entry) (he : e ∈ entries) :
    getValue (getAPCInfo (entries.map Entry.line)) e.key = .ok e.num.val := by
  obtain ⟨hk, hcol, hnum⟩ := hwf e he
  obtain ⟨r, hr1, hr2⟩ := trim_numVal e.num hnum e.unit
  unfold getValue getAPCInfo
  rw [foldl_parseLine_entry entries (fun _ => none) e hwf hnd he, hr1]
  simp only [findallHead_numStr e.num hnum r hr2, pyFloat_numStr e.num hnum]

/-- Witness for C9: the single line `BCHARGE: 100.0 Percent` round-trips to
the rational 100. -/
theorem C9_parse_extract_roundtrip_witness :
    getValue (getAPCInfo ([bchargeEntry].map Entry.line)) bchargeEntry.key
      = .ok bchargeEntry.num.val ∧ bchargeEntry.num.val = 100 :=
  ⟨C9_parse_extract_roundtrip [bchargeEntry] (by decide) (by decide) bchargeEntry (by simp),
   by decide⟩
